import Mathlib

/-!
Verification development for the screenshot/recording capture core
(Tauri backend, Rust). Shallow embedding of:

* the error taxonomy, from src/Tauri/src-tauri/src/error.rs;
* the recording session state machine, from
  src/Tauri/src-tauri/src/capture/recording.rs;
* the capture-history ledger and filename generator, from
  src/Tauri/src-tauri/src/services/storage/manager.rs;
* the pixel normalizer and JPEG quality mapping inside
  encode_cgimage_raw, from src/Tauri/src-tauri/src/capture/screenshot.rs.

Stateful Rust code (fields behind a Mutex in AppState) is embedded as pure
state-passing functions: each operation takes the stored state and returns
the new stored state together with the Result value. Machine integers are
Nat; the f32 quality is modelled over the rationals.
-/

namespace Screenshot

/-- CaptureError from error.rs. The three passthrough variants (Io, Json,
Image) wrap foreign error payloads; they are modelled as carrying the
rendered message string. -/
inductive CaptureError where
  | CaptureFailed (msg : String)
  | RecordingFailed (msg : String)
  | RecordingNotActive
  | StorageError (msg : String)
  | OcrFailed (msg : String)
  | PermissionDenied (msg : String)
  | InvalidConfig (msg : String)
  | Io (msg : String)
  | Json (msg : String)
  | Image (msg : String)
  deriving DecidableEq, Repr

/-- RecordingSessionState from recording.rs. The f64 elapsed_seconds payload
is modelled as a rational. -/
inductive RecordingSessionState where
  | Idle
  | Selecting
  | Starting
  | Recording (elapsed_seconds : ℚ)
  | Stopping
  | Completed
  | Failed (message : String)
  | Cancelled
  deriving DecidableEq, Repr

/-- CaptureType from storage/manager.rs. -/
inductive CaptureType where
  | Screenshot
  | Recording
  | Gif
  deriving DecidableEq, Repr

/-- CaptureItem from storage/manager.rs. -/
structure CaptureItem where
  id : String
  capture_type : CaptureType
  filename : String
  created_at : String
  is_favorite : Bool
  deriving DecidableEq, Repr

/-- The matches test in start_recording, line 29 of recording.rs:
matches Recording with any payload, or Starting. -/
def startBlocked : RecordingSessionState → Bool
  | .Recording _ => true
  | .Starting => true
  | _ => false

/-- The matches test in stop_recording and cancel_recording: matches
Recording with any payload. -/
def isRecordingState : RecordingSessionState → Bool
  | .Recording _ => true
  | _ => false

/-- start_recording from recording.rs, lines 21 to 39, as a transformer of
the stored recording_state. The target and config arguments are unused by
the source (recording is not yet bridged), so they are omitted. -/
def start_recording (s : RecordingSessionState) :
    RecordingSessionState × Except CaptureError Unit :=
  if startBlocked s then
    (s, .error (.RecordingFailed "Recording already in progress"))
  else
    (s, .error (.RecordingFailed
      "Screen recording requires ScreenCaptureKit Swift bridge (not yet integrated)"))

/-- stop_recording from recording.rs, lines 42 to 55. -/
def stop_recording (s : RecordingSessionState) :
    RecordingSessionState × Except CaptureError CaptureItem :=
  if !isRecordingState s then
    (s, .error .RecordingNotActive)
  else
    (s, .error (.RecordingFailed
      "Screen recording stop requires ScreenCaptureKit Swift bridge (not yet integrated)"))

/-- cancel_recording from recording.rs, lines 58 to 67. -/
def cancel_recording (s : RecordingSessionState) :
    RecordingSessionState × Except CaptureError Unit :=
  if !isRecordingState s then
    (s, .error .RecordingNotActive)
  else
    (.Cancelled, .ok ())

/-- get_state from recording.rs: clone of the stored state. -/
def get_state (s : RecordingSessionState) : RecordingSessionState := s

/-- CaptureHistory from storage/manager.rs. -/
structure CaptureHistory where
  items : List CaptureItem
  deriving DecidableEq, Repr

/-- CaptureHistory::add — push at the end. -/
def CaptureHistory.add (h : CaptureHistory) (item : CaptureItem) : CaptureHistory :=
  ⟨h.items ++ [item]⟩

/-- CaptureHistory::remove — retain the items whose id differs, report
whether the length shrank. Returns the new history and the Bool result. -/
def CaptureHistory.remove (h : CaptureHistory) (id : String) :
    CaptureHistory × Bool :=
  let kept := h.items.filter (fun i => i.id != id)
  (⟨kept⟩, decide (kept.length < h.items.length))

/-- A local wall-clock instant, to sub-second precision: the relevant
content of the chrono Local::now() value consumed by generate_filename.
The format string prints nothing finer than the second. -/
structure LocalDateTime where
  year : Nat
  month : Nat
  day : Nat
  hour : Nat
  minute : Nat
  second : Nat
  nanosecond : Nat
  deriving DecidableEq, Repr

/-- Zero-padding to width 2, as the chrono specifiers m, d, H, M, S print. -/
def pad2 (n : Nat) : String :=
  if n < 10 then "0" ++ toString n else toString n

/-- Zero-padding to width 4, as the chrono specifier Y prints for the years
of interest (non-negative). -/
def pad4 (n : Nat) : String :=
  if n < 10 then "000" ++ toString n
  else if n < 100 then "00" ++ toString n
  else if n < 1000 then "0" ++ toString n
  else toString n

/-- The chrono format string "%Y-%m-%d at %H.%M.%S" applied to a local
instant. The nanosecond field is not consulted. -/
def formatTimestamp (t : LocalDateTime) : String :=
  pad4 t.year ++ "-" ++ pad2 t.month ++ "-" ++ pad2 t.day ++ " at " ++
  pad2 t.hour ++ "." ++ pad2 t.minute ++ "." ++ pad2 t.second

/-- generate_filename from storage/manager.rs, lines 176 to 184, with the
current local time passed explicitly. -/
def generate_filename (capture_type : CaptureType) (extension : String)
    (now : LocalDateTime) : String :=
  let pfx := match capture_type with
    | .Screenshot => "Screenshot"
    | .Recording => "Recording"
    | .Gif => "GIF"
  pfx ++ " " ++ formatTimestamp now ++ "." ++ extension

/-- The metadata encode_cgimage_raw (screenshot.rs, lines 116 to 197) reads
off a CGImage: width, height, bytes per row, bits per pixel and the bitmap
info word. All are machine integers, modelled as Nat. -/
structure RawBitmap where
  width : Nat
  height : Nat
  bytes_per_row : Nat
  bits_per_pixel : Nat
  bitmap_info : Nat
  deriving DecidableEq, Repr

/-- byte_order, screenshot.rs line 151: bitmap_info masked with 0x7000. -/
def RawBitmap.byte_order (bm : RawBitmap) : Nat := bm.bitmap_info &&& 0x7000

/-- alpha_info, screenshot.rs line 152: bitmap_info masked with 0x1F. -/
def RawBitmap.alpha_info (bm : RawBitmap) : Nat := bm.bitmap_info &&& 0x1F

/-- is_bgra, screenshot.rs line 153. -/
def RawBitmap.is_bgra (bm : RawBitmap) : Bool :=
  (bm.byte_order == 0x2000) || (bm.bits_per_pixel == 32 && bm.alpha_info != 0)

/-- bytes_per_pixel, screenshot.rs line 156 (integer division). -/
def RawBitmap.bytes_per_pixel (bm : RawBitmap) : Nat := bm.bits_per_pixel / 8

/-- px_offset of pixel (x, y), screenshot.rs lines 158 and 160. -/
def RawBitmap.px_offset (bm : RawBitmap) (y x : Nat) : Nat :=
  y * bm.bytes_per_row + x * bm.bytes_per_pixel

/-- The bytes one loop iteration pushes for one pixel, screenshot.rs lines
161 to 173: four bytes (swapped when BGRA) when the guarded range is inside
the buffer, nothing at all otherwise. -/
def pixelPush (bgra : Bool) (pixel_data : List Nat) (off : Nat) : List Nat :=
  if off + 3 < pixel_data.length then
    if bgra then
      [pixel_data.getD (off + 2) 0, pixel_data.getD (off + 1) 0,
       pixel_data.getD off 0, pixel_data.getD (off + 3) 0]
    else
      [pixel_data.getD off 0, pixel_data.getD (off + 1) 0,
       pixel_data.getD (off + 2) 0, pixel_data.getD (off + 3) 0]
  else []

/-- The rgba vector assembled by the double loop of screenshot.rs lines 157
to 175. -/
def rgbaBytes (bm : RawBitmap) (pixel_data : List Nat) : List Nat :=
  (List.range bm.height).flatMap (fun y =>
    (List.range bm.width).flatMap (fun x =>
      pixelPush bm.is_bgra pixel_data (bm.px_offset y x)))

/-- The pixel-normalization stage of encode_cgimage_raw, screenshot.rs lines
129 to 178: the zero-dimension guard, the assembly loop and the
RgbaImage::from_raw check. from_raw of the image crate accepts a container
holding at least width*height*4 bytes; a shorter one yields None and the
CaptureFailed at line 178. The buffer here never exceeds that bound. The
container-format encoding that follows delegates to the external image
crate and is outside this embedding. -/
def encode_cgimage_raw (bm : RawBitmap) (pixel_data : List Nat) :
    Except CaptureError (List Nat) :=
  if bm.width == 0 || bm.height == 0 then
    .error (.CaptureFailed "Empty image")
  else
    let rgba := rgbaBytes bm pixel_data
    if bm.width * bm.height * 4 ≤ rgba.length then .ok rgba
    else .error (.CaptureFailed "Pixel buffer size mismatch")

/-- The Rust saturating cast from a float to u8, applied to an exact
rational value: negative values collapse to 0, values above 255 to 255,
anything else truncates toward zero. -/
def rustAsU8 (x : ℚ) : Nat :=
  if x < 0 then 0 else if 255 < x then 255 else (⌊x⌋).toNat

/-- The JPEG branch of encode_cgimage_raw, screenshot.rs line 188: the u8
quality handed to JpegEncoder::new_with_quality. The f32 arithmetic is
modelled exactly over the rationals (the refuting inputs below are exactly
representable, so the modelling of the multiply as exact is faithful on
them). -/
def jpeg_quality_byte (quality : ℚ) : Nat := rustAsU8 (quality * 100)

/-- Modelled from the spec (section 4.2): the quality byte the spec
prescribes, clamp(quality, 0, 1) times 100, truncated to an integer. -/
def specQualityByte (quality : ℚ) : Nat :=
  (⌊(max 0 (min 1 quality)) * 100⌋).toNat

/-! ## Theorems -/

/-- Claim C1: whenever the stored recording session state is Starting or
Recording with any elapsed payload, start_recording is rejected with a
RecordingFailed error whose message carries the phrase "already in
progress" (the full source message is "Recording already in progress",
written below as the concatenation exhibiting that phrase), and the stored
state is returned unchanged. -/
theorem start_recording_rejected_when_in_progress (s : RecordingSessionState)
    (h : s = .Starting ∨ ∃ e, s = .Recording e) :
    start_recording s =
      (s, .error (.RecordingFailed ("Recording " ++ "already in progress"))) := by
  rcases h with h | ⟨e, h⟩ <;> subst h <;> rfl

/-- Witness for C1 at the concrete state Starting. -/
theorem start_recording_rejected_when_in_progress_wit :
    start_recording .Starting =
      (.Starting, .error (.RecordingFailed ("Recording " ++ "already in progress"))) :=
  start_recording_rejected_when_in_progress .Starting (Or.inl rfl)

/-- Claim C2: from each terminal state (Completed, Failed, Cancelled),
start_recording does not begin a new session: the stored state is returned
unchanged — in particular it does not become Starting or Recording — and
the call returns a RecordingFailed error rather than success. (In the
current source, recording start is not yet bridged, so start_recording
never begins a session from any state; terminal states are no exception,
and only an explicit external reset produces Idle.) -/
theorem start_recording_no_session_from_terminal (s : RecordingSessionState)
    (h : s = .Completed ∨ (∃ m, s = .Failed m) ∨ s = .Cancelled) :
    (start_recording s).1 = s ∧
    (start_recording s).1 ≠ .Starting ∧
    (∀ e, (start_recording s).1 ≠ .Recording e) ∧
    ∃ m, (start_recording s).2 = .error (.RecordingFailed m) := by
  rcases h with h | ⟨m, h⟩ | h <;> subst h <;>
    exact ⟨rfl, by simp [start_recording, startBlocked],
      fun e => by simp [start_recording, startBlocked],
      ⟨_, rfl⟩⟩

/-- Witness for C2 at the concrete state Completed. -/
theorem start_recording_no_session_from_terminal_wit :
    (start_recording .Completed).1 = .Completed ∧
    (start_recording .Completed).1 ≠ .Starting ∧
    (∀ e, (start_recording .Completed).1 ≠ .Recording e) ∧
    ∃ m, (start_recording .Completed).2 = .error (.RecordingFailed m) :=
  start_recording_no_session_from_terminal .Completed (Or.inl rfl)

/-- Claim C7: for every state that is not Recording, stop_recording and
cancel_recording both fail with RecordingNotActive and leave the stored
state unchanged; and from any Recording state, cancel_recording moves the
stored state to exactly Cancelled and returns unit. -/
theorem stop_cancel_not_active_and_cancel_transitions
    (s t : RecordingSessionState)
    (hs : ∀ e, s ≠ .Recording e) (ht : ∃ e, t = .Recording e) :
    stop_recording s = (s, .error .RecordingNotActive) ∧
    cancel_recording s = (s, .error .RecordingNotActive) ∧
    cancel_recording t = (.Cancelled, .ok ()) := by
  obtain ⟨e, ht⟩ := ht
  subst ht
  have hrec : isRecordingState s = false := by
    cases s <;> first
      | rfl
      | exact absurd rfl (hs _)
  exact ⟨by simp [stop_recording, hrec], by simp [cancel_recording, hrec], rfl⟩

/-- Witness for C7 at the concrete states Idle and Recording 0. -/
theorem stop_cancel_not_active_and_cancel_transitions_wit :
    stop_recording .Idle = (.Idle, .error .RecordingNotActive) ∧
    cancel_recording .Idle = (.Idle, .error .RecordingNotActive) ∧
    cancel_recording (.Recording 0) = (.Cancelled, .ok ()) :=
  stop_cancel_not_active_and_cancel_transitions .Idle (.Recording 0)
    (fun e h => by cases h) ⟨0, rfl⟩

/-- Claim C8: generate_filename is a function of the capture type, the
extension and the current local second only — two instants agreeing down to
the second (the sub-second field free) give the same string — and the
string is exactly the prefix Screenshot, Recording or GIF according to the
type, a space, the zero-padded "YYYY-MM-DD at HH.MM.SS" stamp, a dot and
the extension. -/
theorem generate_filename_deterministic_and_shaped
    (capture_type : CaptureType) (extension : String) (t1 t2 : LocalDateTime)
    (hy : t1.year = t2.year) (hmo : t1.month = t2.month) (hd : t1.day = t2.day)
    (hh : t1.hour = t2.hour) (hmi : t1.minute = t2.minute)
    (hs : t1.second = t2.second) :
    generate_filename capture_type extension t1 =
      generate_filename capture_type extension t2 ∧
    generate_filename capture_type extension t1 =
      (match capture_type with
        | .Screenshot => "Screenshot"
        | .Recording => "Recording"
        | .Gif => "GIF") ++ " " ++
      (pad4 t1.year ++ "-" ++ pad2 t1.month ++ "-" ++ pad2 t1.day ++ " at " ++
       pad2 t1.hour ++ "." ++ pad2 t1.minute ++ "." ++ pad2 t1.second) ++
      "." ++ extension := by
  constructor
  · simp only [generate_filename, formatTimestamp, hy, hmo, hd, hh, hmi, hs]
  · cases capture_type <;> rfl

/-- Witness for C8: same local second, different nanosecond, same name. -/
theorem generate_filename_deterministic_and_shaped_wit :
    generate_filename .Screenshot "png" ⟨2025, 1, 2, 3, 4, 5, 111⟩ =
      generate_filename .Screenshot "png" ⟨2025, 1, 2, 3, 4, 5, 999⟩ ∧
    generate_filename .Screenshot "png" ⟨2025, 1, 2, 3, 4, 5, 111⟩ =
      "Screenshot" ++ " " ++
      (pad4 2025 ++ "-" ++ pad2 1 ++ "-" ++ pad2 2 ++ " at " ++
       pad2 3 ++ "." ++ pad2 4 ++ "." ++ pad2 5) ++ "." ++ "png" :=
  generate_filename_deterministic_and_shaped .Screenshot "png"
    ⟨2025, 1, 2, 3, 4, 5, 111⟩ ⟨2025, 1, 2, 3, 4, 5, 999⟩
    rfl rfl rfl rfl rfl rfl

/-- Claim C9: when the history holds no item with the id of the item being
added, add followed by remove of that same id returns true and brings the
history length back to what it was before the add. -/
theorem add_then_remove_same_id (h : CaptureHistory) (item : CaptureItem)
    (hfresh : ∀ i ∈ h.items, i.id ≠ item.id) :
    ((h.add item).remove item.id).2 = true ∧
    ((h.add item).remove item.id).1.items.length = h.items.length := by
  have hkeep : h.items.filter (fun i => i.id != item.id) = h.items :=
    List.filter_eq_self.mpr (fun a ha => by simpa using hfresh a ha)
  have hitem : [item].filter (fun i => i.id != item.id) = [] := by simp
  refine ⟨?_, ?_⟩ <;>
    simp [CaptureHistory.remove, CaptureHistory.add, List.filter_append, hkeep, hitem]

/-- Witness for C9 on a one-item history and a fresh id. -/
theorem add_then_remove_same_id_wit :
    ((CaptureHistory.add ⟨[⟨"a", .Screenshot, "f.png", "2025", false⟩]⟩
        ⟨"b", .Screenshot, "g.png", "2025", false⟩).remove "b").2 = true ∧
    ((CaptureHistory.add ⟨[⟨"a", .Screenshot, "f.png", "2025", false⟩]⟩
        ⟨"b", .Screenshot, "g.png", "2025", false⟩).remove "b").1.items.length =
      (⟨[⟨"a", .Screenshot, "f.png", "2025", false⟩]⟩ : CaptureHistory).items.length :=
  add_then_remove_same_id ⟨[⟨"a", .Screenshot, "f.png", "2025", false⟩]⟩
    ⟨"b", .Screenshot, "g.png", "2025", false⟩ (by decide)

/-- Claim C10: remove deletes every item whose id equals the argument (no
item with that id survives), returns true exactly when at least one such
item was present, and keeps the other items — the survivors are a sublist
of the original items (original order), and every original item with a
different id survives. -/
theorem remove_all_matching (h : CaptureHistory) (id : String) :
    (∀ i ∈ (h.remove id).1.items, i.id ≠ id) ∧
    ((h.remove id).2 = true ↔ ∃ i ∈ h.items, i.id = id) ∧
    (h.remove id).1.items.Sublist h.items ∧
    (∀ i ∈ h.items, i.id ≠ id → i ∈ (h.remove id).1.items) := by
  refine ⟨?_, ?_, ?_, ?_⟩
  · intro i hi
    simpa using List.of_mem_filter hi
  · simp only [CaptureHistory.remove, decide_eq_true_eq,
      List.length_filter_lt_length_iff_exists]
    simp
  · exact List.filter_sublist _
  · intro i hi hne
    exact List.mem_filter.mpr ⟨hi, by simpa using hne⟩

/-- Counterexample to claim C3 as stated: at quality 3/2 (exactly
representable in f32, and 3/2 times 100 is the exact float product 150) the
source delegates the saturating cast value 150, while clamp(3/2, 0, 1)
times 100 truncates to 100; the delegated value differs from the claimed
one and exceeds 100. -/
theorem jpeg_quality_clamp_cex :
    jpeg_quality_byte (3/2) = 150 ∧ specQualityByte (3/2) = 100 ∧
    jpeg_quality_byte (3/2) ≠ specQualityByte (3/2) ∧
    ¬ jpeg_quality_byte (3/2) ≤ 100 := by
  have h1 : jpeg_quality_byte (3/2) = 150 := by
    norm_num [jpeg_quality_byte, rustAsU8]
    rfl
  have h2 : specQualityByte (3/2) = 100 := by
    norm_num [specQualityByte]
    rfl
  exact ⟨h1, h2, by rw [h1, h2]; norm_num, by rw [h1]; norm_num⟩

/-- Claim C3 amended: the delegated quality byte is the saturating
truncating u8 cast of quality times 100 (so it lies in 0 to 255 and can
exceed 100 for quality above 1); for quality in the unit interval it equals
clamp(quality, 0, 1) times 100 truncated, and then lies in 0 to 100. -/
theorem jpeg_quality_matches_spec_on_unit_interval (q : ℚ)
    (h0 : 0 ≤ q) (h1 : q ≤ 1) :
    jpeg_quality_byte q = specQualityByte q ∧ jpeg_quality_byte q ≤ 100 := by
  have hq0 : (0 : ℚ) ≤ q * 100 := by positivity
  have hq100 : q * 100 ≤ 100 := by nlinarith
  have hnotneg : ¬ q * 100 < 0 := not_lt.mpr hq0
  have hnot255 : ¬ (255 : ℚ) < q * 100 := not_lt.mpr (by linarith)
  have hclamp : max 0 (min 1 q) = q := by
    rw [min_eq_right h1, max_eq_right h0]
  constructor
  · simp [jpeg_quality_byte, rustAsU8, specQualityByte, hclamp, hnotneg, hnot255]
  · have hfloor : ⌊q * 100⌋ ≤ 100 := by
      have h := Int.floor_le_floor (α := ℚ) hq100
      simpa using h
    simp only [jpeg_quality_byte, rustAsU8, if_neg hnotneg, if_neg hnot255]
    exact Int.toNat_le.mpr hfloor

/-- Witness for C3 amended at quality 1/2. -/
theorem jpeg_quality_matches_spec_on_unit_interval_wit :
    jpeg_quality_byte (1/2) = specQualityByte (1/2) ∧
    jpeg_quality_byte (1/2) ≤ 100 :=
  jpeg_quality_matches_spec_on_unit_interval (1/2) (by norm_num) (by norm_num)

/-! ### Pixel normalizer helper lemmas -/

/-- A loop iteration pushes at most four bytes. -/
theorem pixelPush_length_le (bgra : Bool) (data : List Nat) (off : Nat) :
    (pixelPush bgra data off).length ≤ 4 := by
  unfold pixelPush
  split
  · split <;> simp
  · simp

/-- A loop iteration pushes exactly four bytes when the guarded range is
inside the buffer. -/
theorem pixelPush_length_of_inRange (bgra : Bool) (data : List Nat) (off : Nat)
    (h : off + 3 < data.length) : (pixelPush bgra data off).length = 4 := by
  unfold pixelPush
  rw [if_pos h]
  split <;> rfl

/-- A loop iteration pushes nothing when the guarded range falls outside
the buffer. -/
theorem pixelPush_of_outOfRange (bgra : Bool) (data : List Nat) (off : Nat)
    (h : ¬ off + 3 < data.length) : pixelPush bgra data off = [] := by
  unfold pixelPush
  rw [if_neg h]

/-- Length of a flatMap over an initial segment when every piece has the
same length. -/
theorem flatMapRange_length_eq (n c : Nat) (f : Nat → List Nat)
    (h : ∀ i < n, (f i).length = c) :
    ((List.range n).flatMap f).length = c * n := by
  induction n with
  | zero => simp
  | succ m ih =>
    rw [List.range_succ, List.flatMap_append, List.length_append,
      ih (fun i hi => h i (Nat.lt_succ_of_lt hi))]
    simp [h m (Nat.lt_succ_self m), Nat.mul_succ]

/-- Length bound for a flatMap over an initial segment from a uniform bound
on the pieces. -/
theorem flatMapRange_length_le (n c : Nat) (f : Nat → List Nat)
    (h : ∀ i < n, (f i).length ≤ c) :
    ((List.range n).flatMap f).length ≤ c * n := by
  induction n with
  | zero => simp
  | succ m ih =>
    rw [List.range_succ, List.flatMap_append, List.length_append]
    have h1 := ih (fun i hi => h i (Nat.lt_succ_of_lt hi))
    have h2 := h m (Nat.lt_succ_self m)
    have h3 : c * (m + 1) = c * m + c := by ring
    simp only [List.flatMap_cons, List.flatMap_nil, List.append_nil]
    omega

/-- The length of a flatMap over an initial segment falls strictly short of
the uniform bound as soon as one piece does. -/
theorem flatMapRange_length_lt (n c : Nat) (f : Nat → List Nat)
    (hle : ∀ i < n, (f i).length ≤ c) (j : Nat) (hj : j < n)
    (hlt : (f j).length < c) :
    ((List.range n).flatMap f).length < c * n := by
  induction n with
  | zero => exact absurd hj (Nat.not_lt_zero j)
  | succ m ih =>
    rw [List.range_succ, List.flatMap_append, List.length_append]
    simp only [List.flatMap_cons, List.flatMap_nil, List.append_nil]
    have hlef := flatMapRange_length_le m c f (fun i hi => hle i (Nat.lt_succ_of_lt hi))
    have h3 : c * (m + 1) = c * m + c := by ring
    rcases Nat.lt_or_ge j m with hjm | hjm
    · have h4 := ih (fun i hi => hle i (Nat.lt_succ_of_lt hi)) hjm
      have h5 := hle m (Nat.lt_succ_self m)
      omega
    · have hjeq : j = m := by omega
      rw [hjeq] at hlt
      omega

/-- Position lookup inside a flatMap over an initial segment whose pieces
all have the same length. -/
theorem flatMapRange_getElem (n c : Nat) (f : Nat → List Nat)
    (h : ∀ i < n, (f i).length = c) (i j : Nat) (hi : i < n) (hj : j < c) :
    ((List.range n).flatMap f)[c * i + j]? = (f i)[j]? := by
  induction n with
  | zero => exact absurd hi (Nat.not_lt_zero i)
  | succ m ih =>
    rw [List.range_succ, List.flatMap_append]
    simp only [List.flatMap_cons, List.flatMap_nil, List.append_nil]
    have hlen : ((List.range m).flatMap f).length = c * m :=
      flatMapRange_length_eq m c f (fun i hi => h i (Nat.lt_succ_of_lt hi))
    rw [List.getElem?_append]
    rcases Nat.lt_or_ge i m with him | him
    · have hidx : c * i + j < c * m := by
        have ha : c * (i + 1) ≤ c * m := Nat.mul_le_mul_left c him
        have hb : c * (i + 1) = c * i + c := by ring
        omega
      rw [if_pos (by omega : c * i + j < ((List.range m).flatMap f).length)]
      exact ih (fun i hi => h i (Nat.lt_succ_of_lt hi)) him
    · have hieq : i = m := by omega
      rw [hieq, if_neg (by omega : ¬ c * m + j < ((List.range m).flatMap f).length)]
      congr 1
      omega

/-- The assembled buffer never exceeds four bytes per nominal pixel. -/
theorem rgbaBytes_length_le (bm : RawBitmap) (data : List Nat) :
    (rgbaBytes bm data).length ≤ 4 * bm.width * bm.height := by
  have h : (4 * bm.width) * bm.height = 4 * bm.width * bm.height := by ring
  rw [rgbaBytes, ← h]
  exact flatMapRange_length_le bm.height (4 * bm.width) _ (fun y hy =>
    flatMapRange_length_le bm.width 4 _ (fun x hx => pixelPush_length_le _ _ _))

/-- When every pixel of the grid is in range, the assembled buffer has
exactly four bytes per pixel. -/
theorem rgbaBytes_length_of_allInRange (bm : RawBitmap) (data : List Nat)
    (h : ∀ y < bm.height, ∀ x < bm.width, bm.px_offset y x + 3 < data.length) :
    (rgbaBytes bm data).length = 4 * bm.width * bm.height := by
  have heq : (4 * bm.width) * bm.height = 4 * bm.width * bm.height := by ring
  rw [rgbaBytes, ← heq]
  exact flatMapRange_length_eq bm.height (4 * bm.width) _ (fun y hy =>
    flatMapRange_length_eq bm.width 4 _ (fun x hx =>
      pixelPush_length_of_inRange _ _ _ (h y hy x hx)))

/-- One out-of-range pixel makes the assembled buffer strictly shorter than
four bytes per pixel. -/
theorem rgbaBytes_length_lt (bm : RawBitmap) (data : List Nat) (y x : Nat)
    (hy : y < bm.height) (hx : x < bm.width)
    (hout : ¬ bm.px_offset y x + 3 < data.length) :
    (rgbaBytes bm data).length < 4 * bm.width * bm.height := by
  have heq : (4 * bm.width) * bm.height = 4 * bm.width * bm.height := by ring
  rw [rgbaBytes, ← heq]
  refine flatMapRange_length_lt bm.height (4 * bm.width) _ (fun y0 hy0 =>
    flatMapRange_length_le bm.width 4 _ (fun x0 hx0 => pixelPush_length_le _ _ _))
    y hy ?_
  refine flatMapRange_length_lt bm.width 4 _ (fun x0 hx0 => pixelPush_length_le _ _ _)
    x hx ?_
  rw [pixelPush_of_outOfRange _ _ _ hout]
  simp

/-- When every pixel is in range, byte j of pixel (x, y) of the assembled
buffer sits at position 4 * (y * width + x) + j and comes from that pixel's
loop iteration. -/
theorem rgbaBytes_getElem_of_allInRange (bm : RawBitmap) (data : List Nat)
    (hall : ∀ y0 < bm.height, ∀ x0 < bm.width, bm.px_offset y0 x0 + 3 < data.length)
    (y x j : Nat) (hy : y < bm.height) (hx : x < bm.width) (hj : j < 4) :
    (rgbaBytes bm data)[4 * (y * bm.width + x) + j]? =
      (pixelPush bm.is_bgra data (bm.px_offset y x))[j]? := by
  have hrow : ∀ y0 < bm.height,
      ((List.range bm.width).flatMap (fun x0 =>
        pixelPush bm.is_bgra data (bm.px_offset y0 x0))).length = 4 * bm.width :=
    fun y0 hy0 => flatMapRange_length_eq bm.width 4 _ (fun x0 hx0 =>
      pixelPush_length_of_inRange _ _ _ (hall y0 hy0 x0 hx0))
  have hidx : 4 * (y * bm.width + x) + j = (4 * bm.width) * y + (4 * x + j) := by ring
  have hxin : 4 * x + j < 4 * bm.width := by
    have : 4 * (x + 1) ≤ 4 * bm.width := Nat.mul_le_mul_left 4 hx
    omega
  rw [rgbaBytes, hidx,
    flatMapRange_getElem bm.height (4 * bm.width) _ hrow y (4 * x + j) hy hxin]
  exact flatMapRange_getElem bm.width 4 _ (fun x0 hx0 =>
    pixelPush_length_of_inRange _ _ _ (hall y hy x0 hx0)) x j hx hj

/-- The zero-dimension guard is passed when both dimensions are nonzero. -/
theorem encode_guard_false (bm : RawBitmap) (hw : bm.width ≠ 0) (hh : bm.height ≠ 0) :
    (bm.width == 0 || bm.height == 0) = false := by
  simp [hw, hh]

/-- Counterexample to claim C4 as stated: on the 2 by 1 bitmap with row
stride 8, 32 bits per pixel and a 4-byte buffer, the second pixel's byte
range falls outside the buffer; the conversion then fails with
CaptureFailed rather than leaving four zero bytes at that pixel's position
and succeeding. -/
theorem pixel_skip_zero_fill_cex :
    encode_cgimage_raw ⟨2, 1, 8, 32, 0⟩ [9, 9, 9, 9] =
      .error (.CaptureFailed "Pixel buffer size mismatch") := rfl

/-- Claim C4 amended: a pixel whose computed byte range falls outside the
pixel buffer is skipped in the sense that its loop iteration pushes no
bytes at all (the output is shortened, not zero-filled at that position),
and as a consequence the conversion as a whole does fail: the assembled
buffer ends up shorter than width by height by 4 and the
RgbaImage::from_raw check rejects it with CaptureFailed. -/
theorem skipped_pixel_pushes_nothing_then_size_mismatch
    (bm : RawBitmap) (data : List Nat) (y x : Nat)
    (hy : y < bm.height) (hx : x < bm.width)
    (hout : ¬ bm.px_offset y x + 3 < data.length) :
    pixelPush bm.is_bgra data (bm.px_offset y x) = [] ∧
    encode_cgimage_raw bm data =
      .error (.CaptureFailed "Pixel buffer size mismatch") := by
  refine ⟨pixelPush_of_outOfRange _ _ _ hout, ?_⟩
  have hlt := rgbaBytes_length_lt bm data y x hy hx hout
  have hguard := encode_guard_false bm (by omega) (by omega)
  have hnotle : ¬ bm.width * bm.height * 4 ≤ (rgbaBytes bm data).length := by
    have h4 : 4 * bm.width * bm.height = bm.width * bm.height * 4 := by ring
    omega
  simp only [encode_cgimage_raw, hguard, Bool.false_eq_true, if_false, if_neg hnotle]

/-- Witness for C4 amended at the concrete counterexample input. -/
theorem skipped_pixel_pushes_nothing_then_size_mismatch_wit :
    pixelPush (⟨2, 1, 8, 32, 0⟩ : RawBitmap).is_bgra [9, 9, 9, 9]
      ((⟨2, 1, 8, 32, 0⟩ : RawBitmap).px_offset 0 1) = [] ∧
    encode_cgimage_raw ⟨2, 1, 8, 32, 0⟩ [9, 9, 9, 9] =
      .error (.CaptureFailed "Pixel buffer size mismatch") :=
  skipped_pixel_pushes_nothing_then_size_mismatch ⟨2, 1, 8, 32, 0⟩ [9, 9, 9, 9] 0 1
    (by decide) (by decide) (by decide)

/-- Counterexample to claim C5 as stated: on the 1 by 1 bitmap with row
stride 8, 32 bits per pixel and a 4-byte buffer, the byte view (4 bytes) is
shorter than row_stride times height (8), yet normalization succeeds
instead of failing. -/
theorem short_byte_view_cex :
    encode_cgimage_raw ⟨1, 1, 8, 32, 0⟩ [1, 2, 3, 4] = .ok [1, 2, 3, 4] ∧
    ([1, 2, 3, 4] : List Nat).length <
      (⟨1, 1, 8, 32, 0⟩ : RawBitmap).bytes_per_row *
        (⟨1, 1, 8, 32, 0⟩ : RawBitmap).height :=
  ⟨rfl, by decide⟩

/-- Claim C5 amended: normalization on success produces a buffer of length
exactly width by height by 4; it succeeds exactly when both dimensions are
nonzero and every pixel's computed byte range lies inside the byte view
(rather than when the view reaches row_stride times height); and every
failure is a CaptureFailed error. -/
theorem encode_raw_success_characterization (bm : RawBitmap) (data : List Nat) :
    (∀ l, encode_cgimage_raw bm data = .ok l →
      l.length = bm.width * bm.height * 4) ∧
    ((∃ l, encode_cgimage_raw bm data = .ok l) ↔
      (bm.width ≠ 0 ∧ bm.height ≠ 0 ∧
       ∀ y < bm.height, ∀ x < bm.width, bm.px_offset y x + 3 < data.length)) ∧
    (∀ e, encode_cgimage_raw bm data = .error e → ∃ m, e = .CaptureFailed m) := by
  by_cases hdim : bm.width = 0 ∨ bm.height = 0
  · have hguard : (bm.width == 0 || bm.height == 0) = true := by
      rcases hdim with h | h <;> simp [h]
    have henc : encode_cgimage_raw bm data = .error (.CaptureFailed "Empty image") := by
      simp only [encode_cgimage_raw, hguard, if_true]
    refine ⟨?_, ?_, ?_⟩
    · intro l hl
      rw [henc] at hl
      cases hl
    · constructor
      · rintro ⟨l, hl⟩
        rw [henc] at hl
        cases hl
      · rintro ⟨hw, hh, -⟩
        rcases hdim with h | h
        exacts [absurd h hw, absurd h hh]
    · intro e he
      rw [henc] at he
      injection he with h
      exact ⟨"Empty image", h.symm⟩
  · push_neg at hdim
    have hguard := encode_guard_false bm hdim.1 hdim.2
    by_cases hle : bm.width * bm.height * 4 ≤ (rgbaBytes bm data).length
    · have henc : encode_cgimage_raw bm data = .ok (rgbaBytes bm data) := by
        simp only [encode_cgimage_raw, hguard, Bool.false_eq_true, if_false, if_pos hle]
      have hallrange : ∀ y < bm.height, ∀ x < bm.width,
          bm.px_offset y x + 3 < data.length := by
        by_contra hno
        push_neg at hno
        obtain ⟨y, hy, x, hx, hout⟩ := hno
        have hlt := rgbaBytes_length_lt bm data y x hy hx (by omega)
        have h4 : 4 * bm.width * bm.height = bm.width * bm.height * 4 := by ring
        omega
      have hlen : (rgbaBytes bm data).length = bm.width * bm.height * 4 := by
        rw [rgbaBytes_length_of_allInRange bm data hallrange]
        ring
      refine ⟨?_, ?_, ?_⟩
      · intro l hl
        rw [henc] at hl
        injection hl with h
        rw [← h]
        exact hlen
      · exact ⟨fun _ => ⟨hdim.1, hdim.2, hallrange⟩,
          fun _ => ⟨rgbaBytes bm data, henc⟩⟩
      · intro e he
        rw [henc] at he
        cases he
    · have henc : encode_cgimage_raw bm data =
          .error (.CaptureFailed "Pixel buffer size mismatch") := by
        simp only [encode_cgimage_raw, hguard, Bool.false_eq_true, if_false, if_neg hle]
      refine ⟨?_, ?_, ?_⟩
      · intro l hl
        rw [henc] at hl
        cases hl
      · constructor
        · rintro ⟨l, hl⟩
          rw [henc] at hl
          cases hl
        · rintro ⟨-, -, hall⟩
          have hlen := rgbaBytes_length_of_allInRange bm data hall
          have h4 : 4 * bm.width * bm.height = bm.width * bm.height * 4 := by ring
          omega
      · intro e he
        rw [henc] at he
        injection he with h
        exact ⟨"Pixel buffer size mismatch", h.symm⟩

/-- Claim C6: the source is treated as BGRA exactly when the byte-order
bits of bitmap_info equal the little-endian 32-bit value 0x2000, or the
pixel is 32-bit with a non-zero alpha-layout field; and inside a bitmap
whose pixels are all in range, the four output bytes of pixel (x, y) are
the source bytes with R and B swapped in the BGRA case (green and alpha
preserved either way) and the source bytes copied directly otherwise. -/
theorem pixel_channel_order (bm : RawBitmap) (data : List Nat) (y x : Nat)
    (hall : ∀ y0 < bm.height, ∀ x0 < bm.width, bm.px_offset y0 x0 + 3 < data.length)
    (hy : y < bm.height) (hx : x < bm.width) :
    (bm.is_bgra = true ↔
      (bm.byte_order = 0x2000 ∨ (bm.bits_per_pixel = 32 ∧ bm.alpha_info ≠ 0))) ∧
    (rgbaBytes bm data)[4 * (y * bm.width + x)]? =
      some (if bm.is_bgra then data.getD (bm.px_offset y x + 2) 0
            else data.getD (bm.px_offset y x) 0) ∧
    (rgbaBytes bm data)[4 * (y * bm.width + x) + 1]? =
      some (data.getD (bm.px_offset y x + 1) 0) ∧
    (rgbaBytes bm data)[4 * (y * bm.width + x) + 2]? =
      some (if bm.is_bgra then data.getD (bm.px_offset y x) 0
            else data.getD (bm.px_offset y x + 2) 0) ∧
    (rgbaBytes bm data)[4 * (y * bm.width + x) + 3]? =
      some (data.getD (bm.px_offset y x + 3) 0) := by
  have hin := hall y hy x hx
  have g0 := rgbaBytes_getElem_of_allInRange bm data hall y x 0 hy hx (by omega)
  have g1 := rgbaBytes_getElem_of_allInRange bm data hall y x 1 hy hx (by omega)
  have g2 := rgbaBytes_getElem_of_allInRange bm data hall y x 2 hy hx (by omega)
  have g3 := rgbaBytes_getElem_of_allInRange bm data hall y x 3 hy hx (by omega)
  rw [Nat.add_zero] at g0
  refine ⟨?_, ?_, ?_, ?_, ?_⟩
  · simp [RawBitmap.is_bgra, Bool.or_eq_true, Bool.and_eq_true, beq_iff_eq,
      bne_iff_ne, ne_eq]
  all_goals cases hb : bm.is_bgra <;>
    simp_all [pixelPush, if_pos hin]

/-- Witness for C6 on a 1 by 1 little-endian (BGRA) bitmap: the output
quadruple is the input with R and B swapped, G and A preserved. -/
theorem pixel_channel_order_wit :
    ((⟨1, 1, 4, 32, 0x2000⟩ : RawBitmap).is_bgra = true ↔
      ((⟨1, 1, 4, 32, 0x2000⟩ : RawBitmap).byte_order = 0x2000 ∨
       ((⟨1, 1, 4, 32, 0x2000⟩ : RawBitmap).bits_per_pixel = 32 ∧
        (⟨1, 1, 4, 32, 0x2000⟩ : RawBitmap).alpha_info ≠ 0))) ∧
    (rgbaBytes ⟨1, 1, 4, 32, 0x2000⟩ [10, 20, 30, 40])[0]? = some 30 ∧
    (rgbaBytes ⟨1, 1, 4, 32, 0x2000⟩ [10, 20, 30, 40])[1]? = some 20 ∧
    (rgbaBytes ⟨1, 1, 4, 32, 0x2000⟩ [10, 20, 30, 40])[2]? = some 10 ∧
    (rgbaBytes ⟨1, 1, 4, 32, 0x2000⟩ [10, 20, 30, 40])[3]? = some 40 :=
  pixel_channel_order ⟨1, 1, 4, 32, 0x2000⟩ [10, 20, 30, 40] 0 0
    (by decide) (by decide) (by decide)

end Screenshot
